import Mathlib

/-!
Verification of the particle-simulation step of the Home-APP repository.

Two engines are embedded, both shallowly, over the real numbers:

* `Physics2DEngine` from engine2d.js: the per-entity integration and
  boundary reflection and the pairwise collision resolution of
  `updatePhysics`, and the capacity eviction of `launchParticle`.
  The cosmetic mode branches of `updatePhysics` (`zeroG`, `vortexActive`,
  `blackHole`, `extremePhysics`, `isPaused`) are modelled in their default
  (disabled) state, and the purely presentational fields (`trail`, `emoji`,
  `color`) and the score/combo bookkeeping are omitted: none of them feeds
  back into the simulated quantities.

* `Particle` and `PhysicsEngine` from physics-engine.js: `Particle.update`,
  `Particle.checkCollision`, the per-frame loop of `PhysicsEngine.animate`
  (with `qualityMode` on, so the pairwise collision scan runs), the
  lifecycle filter at the end of `animate`, and
  `PhysicsEngine.manageParticleLimit`.  `Date.now()` returns integer
  milliseconds, so creation times and lifespans are integers.

JavaScript numbers are IEEE doubles; the embedding reads the arithmetic
over ℝ.  `Math.pow(f, e)` on a nonnegative base is `Real.rpow f e`, and
`Math.cos (Math.atan2 dy dx) = dx / Real.sqrt (dx*dx + dy*dy)` and
`Math.sin (Math.atan2 dy dx) = dy / Real.sqrt (dx*dx + dy*dy)` whenever
`(dx, dy) ≠ (0, 0)`, which is what the guard `distance > 0` ensures at the
one place the identity is used.
-/

noncomputable section

namespace HomeApp

/-- An entity of engine2d.js: the fields of the particle object literal in
`Physics2DEngine.launchParticle` that the physics of `updatePhysics` reads
or writes (`trail`, `emoji` and `color` are rendering-only). -/
@[ext]
structure ParticleE where
  x : ℝ
  y : ℝ
  vx : ℝ
  vy : ℝ
  size : ℝ
  mass : ℝ
  rotation : ℝ
  rotationSpeed : ℝ
  createdAt : ℤ

/-- The per-entity integration of `Physics2DEngine.updatePhysics`
(engine2d.js lines 318-373, modes off): gravity `p.vy += gravity * dt`,
friction `p.vx *= Math.pow(friction, dt * 60)` and likewise `vy`, position
`p.x += p.vx * dt; p.y += p.vy * dt`, rotation
`p.rotation += p.rotationSpeed`. -/
def integrateE (g f dt : ℝ) (p : ParticleE) : ParticleE :=
  let vy1 := p.vy + g * dt
  let fr := Real.rpow f (dt * 60)
  let vx2 := p.vx * fr
  let vy2 := vy1 * fr
  { p with
    vx := vx2
    vy := vy2
    x := p.x + vx2 * dt
    y := p.y + vy2 * dt
    rotation := p.rotation + p.rotationSpeed }

/-- The boundary collision of `Physics2DEngine.updatePhysics` (engine2d.js
lines 376-397): four sequential checks, each clamping the position to the
wall, scaling the perpendicular velocity by `-bounce`, and (x-walls only)
flipping `rotationSpeed`. -/
def boundaryE (b W H : ℝ) (p : ParticleE) : ParticleE :=
  let p1 := if p.x - p.size / 2 < 0 then
      { p with x := p.size / 2, vx := p.vx * -b, rotationSpeed := p.rotationSpeed * -1 }
    else p
  let p2 := if p1.x + p1.size / 2 > W then
      { p1 with x := W - p1.size / 2, vx := p1.vx * -b, rotationSpeed := p1.rotationSpeed * -1 }
    else p1
  let p3 := if p2.y - p2.size / 2 < 0 then
      { p2 with y := p2.size / 2, vy := p2.vy * -b }
    else p2
  if p3.y + p3.size / 2 > H then
    { p3 with y := H - p3.size / 2, vy := p3.vy * -b }
  else p3

/-- The pairwise collision resolution of `Physics2DEngine.updatePhysics`
(engine2d.js lines 400-432) for one ordered pair: when the centers are
closer than the radius sum and apart, separate each entity by half the
overlap along the contact normal; then, unless the pair is separating
(`relativeVelocity > 0`), apply the impulse scaled by the masses and by
`bounce`. -/
def collidePairE (b : ℝ) (p p2 : ParticleE) : ParticleE × ParticleE :=
  let dx := p2.x - p.x
  let dy := p2.y - p.y
  let distance := Real.sqrt (dx * dx + dy * dy)
  let minDistance := (p.size + p2.size) / 2
  if distance < minDistance ∧ distance > 0 then
    let nx := dx / distance
    let ny := dy / distance
    let overlap := minDistance - distance
    let ps := { p with x := p.x - nx * overlap * 0.5, y := p.y - ny * overlap * 0.5 }
    let p2s := { p2 with x := p2.x + nx * overlap * 0.5, y := p2.y + ny * overlap * 0.5 }
    let relativeVelocity := (p2.vx - p.vx) * nx + (p2.vy - p.vy) * ny
    if relativeVelocity > 0 then (ps, p2s)
    else
      let impulse := 2 * relativeVelocity / (p.mass + p2.mass)
      ({ ps with vx := p.vx + impulse * p2.mass * nx * b
                 vy := p.vy + impulse * p2.mass * ny * b },
       { p2s with vx := p2.vx - impulse * p.mass * nx * b
                  vy := p2.vy - impulse * p.mass * ny * b })
  else (p, p2)

/-- The inner loop `for (let j = i + 1; ...)` of `updatePhysics`: resolve
the current entity against each later entity in order, threading the
updates of both through the list. -/
def innerE (b : ℝ) : ParticleE → List ParticleE → ParticleE × List ParticleE
  | p, [] => (p, [])
  | p, q :: qs =>
      let r := collidePairE b p q
      let rest := innerE b r.1 qs
      (rest.1, r.2 :: rest.2)

theorem innerE_snd_length (b : ℝ) (p : ParticleE) (l : List ParticleE) :
    (innerE b p l).2.length = l.length := by
  induction l generalizing p with
  | nil => rfl
  | cons q qs ih => simp [innerE, ih]

/-- One call of `Physics2DEngine.updatePhysics` (modes off, not paused,
`dt = deltaTime * timeScale`): for each entity in order, integrate, reflect
at the boundary, then resolve collisions against every later entity. -/
def stepE (g b f W H dt : ℝ) : List ParticleE → List ParticleE
  | [] => []
  | p :: ps =>
      let p1 := boundaryE b W H (integrateE g f dt p)
      let r := innerE b p1 ps
      r.1 :: stepE g b f W H dt r.2
termination_by l => l.length
decreasing_by simp [innerE_snd_length]

/-- `Physics2DEngine.launchParticle` at the collection level (engine2d.js
lines 258-288): when the collection has reached `maxParticles`, `shift()`
the oldest entity, then `push` the new one. -/
def launchE (maxParticles : ℕ) (es : List ParticleE) (e : ParticleE) : List ParticleE :=
  (if maxParticles ≤ es.length then es.drop 1 else es) ++ [e]

/-- An entity of physics-engine.js: the fields of the `Particle` class its
physics reads or writes (`emoji`, `special`, `trail` and `maxTrailLength`
are rendering-only; `createdAt` and `lifespan` are the integer milliseconds
of `Date.now()`). -/
@[ext]
structure ParticleP where
  x : ℝ
  y : ℝ
  vx : ℝ
  vy : ℝ
  size : ℝ
  mass : ℝ
  rotation : ℝ
  rotationSpeed : ℝ
  glowIntensity : ℝ
  createdAt : ℤ
  lifespan : ℤ

/-- `Particle.update` from physics-engine.js (lines 20-69): gravity
`vy += gravity * mass`, friction `vx *= friction; vy *= friction`,
position `x += vx; y += vy`, rotation `rotation += rotationSpeed`, then
the four sequential boundary checks (x-walls flip `rotationSpeed`, y-walls
scale it by the `dampening` factor 0.95, and a floor contact at low speed
scales it by a further 0.9), and finally `glowIntensity *= 0.95`. -/
def updateP (gravity bounce friction width height : ℝ) (p : ParticleP) : ParticleP :=
  let vy1 := p.vy + gravity * p.mass
  let vx2 := p.vx * friction
  let vy2 := vy1 * friction
  let p0 := { p with
    vx := vx2
    vy := vy2
    x := p.x + vx2
    y := p.y + vy2
    rotation := p.rotation + p.rotationSpeed }
  let dampening : ℝ := 0.95
  let p1 := if p0.x - p0.size / 2 < 0 then
      { p0 with x := p0.size / 2, vx := p0.vx * -bounce,
                rotationSpeed := p0.rotationSpeed * -1, glowIntensity := 1 }
    else p0
  let p2 := if p1.x + p1.size / 2 > width then
      { p1 with x := width - p1.size / 2, vx := p1.vx * -bounce,
                rotationSpeed := p1.rotationSpeed * -1, glowIntensity := 1 }
    else p1
  let p3 := if p2.y - p2.size / 2 < 0 then
      { p2 with y := p2.size / 2, vy := p2.vy * -bounce,
                rotationSpeed := p2.rotationSpeed * dampening, glowIntensity := 1 }
    else p2
  let p4 := if p3.y + p3.size / 2 > height then
      let pa := { p3 with y := height - p3.size / 2, vy := p3.vy * -bounce,
                          rotationSpeed := p3.rotationSpeed * dampening, glowIntensity := 1 }
      if |pa.vy| < 0.5 ∧ |pa.vx| < 0.5 then
        { pa with rotationSpeed := pa.rotationSpeed * 0.9 }
      else pa
    else p3
  { p4 with glowIntensity := p4.glowIntensity * 0.95 }

/-- `Particle.checkCollision` from physics-engine.js (lines 71-104): when
overlapping and apart, separate each entity by half the overlap along
`(cos angle, sin angle)` with `angle = atan2 dy dx`, i.e. along
`(dx / distance, dy / distance)`; then, when the pair is approaching
(`dotProduct > 0`, with `(dx, dy)` pointing from `other` to `this`),
apply the impulse scaled by the masses and by the fixed factor 0.8. -/
def checkCollisionP (p other : ParticleP) : ParticleP × ParticleP :=
  let dx := p.x - other.x
  let dy := p.y - other.y
  let distance := Real.sqrt (dx * dx + dy * dy)
  let minDistance := (p.size + other.size) / 2
  if distance < minDistance ∧ distance > 0 then
    let cosA := dx / distance
    let sinA := dy / distance
    let overlap := minDistance - distance
    let separationX := cosA * overlap * 0.5
    let separationY := sinA * overlap * 0.5
    let ps := { p with x := p.x + separationX, y := p.y + separationY }
    let os := { other with x := other.x - separationX, y := other.y - separationY }
    let dotProduct := (p.vx - other.vx) * cosA + (p.vy - other.vy) * sinA
    if dotProduct > 0 then
      let impulse := 2 * dotProduct / (p.mass + other.mass)
      ({ ps with vx := p.vx - impulse * other.mass * cosA * 0.8
                 vy := p.vy - impulse * other.mass * sinA * 0.8
                 glowIntensity := 0.8 },
       { os with vx := other.vx + impulse * p.mass * cosA * 0.8
                 vy := other.vy + impulse * p.mass * sinA * 0.8
                 glowIntensity := 0.8 })
    else (ps, os)
  else (p, other)

/-- The inner collision scan `for (let j = i + 1; ...)` of
`PhysicsEngine.animate` (qualityMode on). -/
def innerP : ParticleP → List ParticleP → ParticleP × List ParticleP
  | p, [] => (p, [])
  | p, q :: qs =>
      let r := checkCollisionP p q
      let rest := innerP r.1 qs
      (rest.1, r.2 :: rest.2)

theorem innerP_snd_length (p : ParticleP) (l : List ParticleP) :
    (innerP p l).2.length = l.length := by
  induction l generalizing p with
  | nil => rfl
  | cons q qs ih => simp [innerP, ih]

/-- The per-frame update loop of `PhysicsEngine.animate` (physics-engine.js
lines 663-674, qualityMode on): for each particle in order,
`particle.update(...)` then collide against every later particle. -/
def stepAllP (g b f w h : ℝ) : List ParticleP → List ParticleP
  | [] => []
  | p :: ps =>
      let p1 := updateP g b f w h p
      let r := innerP p1 ps
      r.1 :: stepAllP g b f w h r.2
termination_by l => l.length
decreasing_by simp [innerP_snd_length]

/-- The lifecycle filter at the end of `PhysicsEngine.animate`
(physics-engine.js lines 676-679): keep a particle exactly when
`Date.now() - createdAt < lifespan`. -/
def cullP (now : ℤ) (es : List ParticleP) : List ParticleP :=
  es.filter fun p => decide (now - p.createdAt < p.lifespan)

/-- One whole frame of `PhysicsEngine.animate`: the update/collision loop
followed by the lifecycle filter. -/
def animP (g b f w h : ℝ) (now : ℤ) (es : List ParticleP) : List ParticleP :=
  cullP now (stepAllP g b f w h es)

/-- `PhysicsEngine.manageParticleLimit` (physics-engine.js lines 461-466):
when over the limit, `splice(0, length - maxParticles)` removes that many
oldest entities from the front. -/
def manageP (maxParticles : ℕ) (es : List ParticleP) : List ParticleP :=
  if maxParticles < es.length then es.drop (es.length - maxParticles) else es

/-- `PhysicsEngine.launchParticle` at the collection level: `push` the new
particle, then `manageParticleLimit`. -/
def spawnP (maxParticles : ℕ) (es : List ParticleP) (e : ParticleP) : List ParticleP :=
  manageP maxParticles (es ++ [e])

/-- A concrete engine2d entity at the default slider size 30 (so
`mass = size / 30 = 1`, the value `launchParticle` stores), at rest
rotationally, created at time 0. -/
def mkE (x y vx vy : ℝ) : ParticleE :=
  ⟨x, y, vx, vy, 30, 1, 0, 0, 0⟩

/-- A concrete physics-engine particle at the non-special size 40 (so
`mass = size / 40 = 1`) with the non-special lifespan 10000 ms. -/
def mkP (x y vx vy : ℝ) : ParticleP :=
  ⟨x, y, vx, vy, 40, 1, 0, 0, 0, 0, 10000⟩

/-- The rotation advance `p.rotation += p.rotationSpeed` alone: what one
`updatePhysics` call at `dt = 0` does to an entity it neither reflects nor
collides, since that line is the only one of the integration not scaled by
`dt`. -/
def spinE (p : ParticleE) : ParticleE :=
  { p with rotation := p.rotation + p.rotationSpeed }

/-- The guard of the engine2d pairwise collision branch: centers closer
than the radius sum and strictly apart. -/
def overlapE (p p2 : ParticleE) : Prop :=
  Real.sqrt ((p2.x - p.x) * (p2.x - p.x) + (p2.y - p.y) * (p2.y - p.y))
      < (p.size + p2.size) / 2 ∧
    Real.sqrt ((p2.x - p.x) * (p2.x - p.x) + (p2.y - p.y) * (p2.y - p.y)) > 0

/-- The identity of a physics-engine particle for lifecycle purposes: its
creation time and lifespan, the two fields the `animate` filter reads and
no physics step writes. -/
def idsP (l : List ParticleP) : List (ℤ × ℤ) :=
  l.map fun p => (p.createdAt, p.lifespan)

/-- Square roots of concrete perfect squares, for evaluating the collision
guard at concrete inputs. -/
theorem sqrt_eval {s r : ℝ} (hr : 0 ≤ r) (hs : s = r * r) : Real.sqrt s = r := by
  rw [hs]
  exact Real.sqrt_mul_self hr

theorem stepE_nil (g b f W H dt : ℝ) : stepE g b f W H dt [] = [] := by
  simp [stepE]

theorem stepE_cons (g b f W H dt : ℝ) (p : ParticleE) (ps : List ParticleE) :
    stepE g b f W H dt (p :: ps) =
      (innerE b (boundaryE b W H (integrateE g f dt p)) ps).1 ::
        stepE g b f W H dt (innerE b (boundaryE b W H (integrateE g f dt p)) ps).2 := by
  rw [stepE]

theorem integrateE_x (g f dt : ℝ) (p : ParticleE) :
    (integrateE g f dt p).x = p.x + p.vx * Real.rpow f (dt * 60) * dt := by
  simp [integrateE]

theorem integrateE_y (g f dt : ℝ) (p : ParticleE) :
    (integrateE g f dt p).y = p.y + (p.vy + g * dt) * Real.rpow f (dt * 60) * dt := by
  simp [integrateE]

theorem integrateE_vx (g f dt : ℝ) (p : ParticleE) :
    (integrateE g f dt p).vx = p.vx * Real.rpow f (dt * 60) := by
  simp [integrateE]

theorem integrateE_vy (g f dt : ℝ) (p : ParticleE) :
    (integrateE g f dt p).vy = (p.vy + g * dt) * Real.rpow f (dt * 60) := by
  simp [integrateE]

theorem integrateE_size (g f dt : ℝ) (p : ParticleE) :
    (integrateE g f dt p).size = p.size := by
  simp [integrateE]

theorem integrateE_rotation (g f dt : ℝ) (p : ParticleE) :
    (integrateE g f dt p).rotation = p.rotation + p.rotationSpeed := by
  simp [integrateE]

/-- At `dt = 0`, gravity adds nothing, the friction factor is
`friction ^ 0 = 1`, the position moves by `v * 0 = 0`, and only the
un-scaled rotation advance remains. -/
theorem integrateE_zero_dt (g f : ℝ) (p : ParticleE) :
    integrateE g f 0 p = spinE p := by
  ext <;> simp [integrateE, spinE, Real.rpow_zero]

/-- When none of the four wall checks fires, the boundary phase is the
identity. -/
theorem boundaryE_eq_of (b W H : ℝ) (p : ParticleE)
    (h1 : ¬ p.x - p.size / 2 < 0) (h2 : ¬ p.x + p.size / 2 > W)
    (h3 : ¬ p.y - p.size / 2 < 0) (h4 : ¬ p.y + p.size / 2 > H) :
    boundaryE b W H p = p := by
  simp only [boundaryE]
  rw [if_neg h1, if_neg h2, if_neg h3, if_neg h4]

/-- A floor hit alone: clamp `y` to `H - size/2` and scale `vy` by
`-bounce`. -/
theorem boundaryE_floor (b W H : ℝ) (p : ParticleE)
    (h1 : ¬ p.x - p.size / 2 < 0) (h2 : ¬ p.x + p.size / 2 > W)
    (h3 : ¬ p.y - p.size / 2 < 0) (h4 : p.y + p.size / 2 > H) :
    boundaryE b W H p = { p with y := H - p.size / 2, vy := p.vy * -b } := by
  simp only [boundaryE]
  rw [if_neg h1, if_neg h2, if_neg h3, if_pos h4]

/-- Whatever the input, the boundary phase leaves the position inside
`[size/2, bound - size/2]` on each axis, provided the entity fits in the
box at all. -/
theorem boundaryE_mem (b W H : ℝ) (p : ParticleE) (hW : p.size ≤ W) (hH : p.size ≤ H) :
    p.size / 2 ≤ (boundaryE b W H p).x ∧ (boundaryE b W H p).x ≤ W - p.size / 2 ∧
    p.size / 2 ≤ (boundaryE b W H p).y ∧ (boundaryE b W H p).y ≤ H - p.size / 2 := by
  simp only [boundaryE]
  split_ifs <;> refine ⟨?_, ?_, ?_, ?_⟩ <;> simp_all <;> linarith

/-- Outside its guard the engine2d pair resolution is the identity. -/
theorem collidePairE_of_not_overlap (b : ℝ) (p q : ParticleE) (h : ¬ overlapE p q) :
    collidePairE b p q = (p, q) := by
  simp only [overlapE] at h
  simp only [collidePairE]
  rw [if_neg h]

/-- The collision guard reads only positions and sizes, which `spinE`
keeps. -/
theorem overlapE_spinE (p q : ParticleE) : overlapE (spinE p) q ↔ overlapE p q := by
  simp [overlapE, spinE]

/-- The inner scan leaves everything alone when the current entity
overlaps none of the later ones. -/
theorem innerE_eq_of (b : ℝ) (p : ParticleE) (l : List ParticleE)
    (h : ∀ q ∈ l, ¬ overlapE p q) : innerE b p l = (p, l) := by
  induction l with
  | nil => rfl
  | cons q qs ih =>
      rw [innerE, collidePairE_of_not_overlap b p q (h q (by simp))]
      rw [ih fun r hr => h r (by simp [hr])]

theorem stepAllP_nil (g b f w h : ℝ) : stepAllP g b f w h [] = [] := by
  simp [stepAllP]

theorem stepAllP_cons (g b f w h : ℝ) (p : ParticleP) (ps : List ParticleP) :
    stepAllP g b f w h (p :: ps) =
      (innerP (updateP g b f w h p) ps).1 ::
        stepAllP g b f w h (innerP (updateP g b f w h p) ps).2 := by
  rw [stepAllP]

/-- `Particle.update` never writes `createdAt` or `lifespan`. -/
theorem updateP_ids (g b f w h : ℝ) (p : ParticleP) :
    (updateP g b f w h p).createdAt = p.createdAt ∧
    (updateP g b f w h p).lifespan = p.lifespan := by
  simp only [updateP]
  split_ifs <;> exact ⟨rfl, rfl⟩

/-- `Particle.checkCollision` never writes `createdAt` or `lifespan` of
either particle. -/
theorem checkCollisionP_ids (p q : ParticleP) :
    ((checkCollisionP p q).1.createdAt = p.createdAt ∧
     (checkCollisionP p q).1.lifespan = p.lifespan) ∧
    ((checkCollisionP p q).2.createdAt = q.createdAt ∧
     (checkCollisionP p q).2.lifespan = q.lifespan) := by
  simp only [checkCollisionP]
  split_ifs <;> exact ⟨⟨rfl, rfl⟩, ⟨rfl, rfl⟩⟩

theorem innerP_fst_ids (p : ParticleP) (l : List ParticleP) :
    (innerP p l).1.createdAt = p.createdAt ∧ (innerP p l).1.lifespan = p.lifespan := by
  induction l generalizing p with
  | nil => exact ⟨rfl, rfl⟩
  | cons q qs ih =>
      simp only [innerP]
      obtain ⟨h1, h2⟩ := (checkCollisionP_ids p q).1
      obtain ⟨i1, i2⟩ := ih (checkCollisionP p q).1
      exact ⟨i1.trans h1, i2.trans h2⟩

theorem innerP_snd_ids (p : ParticleP) (l : List ParticleP) :
    idsP (innerP p l).2 = idsP l := by
  induction l generalizing p with
  | nil => rfl
  | cons q qs ih =>
      simp only [innerP, idsP, List.map_cons]
      obtain ⟨h1, h2⟩ := (checkCollisionP_ids p q).2
      rw [h1, h2]
      have htail := ih (checkCollisionP p q).1
      simp only [idsP] at htail
      rw [htail]

/-- The whole per-frame update/collision loop preserves each particle's
creation time and lifespan, in order. -/
theorem stepAllP_ids (g b f w h : ℝ) :
    ∀ (n : ℕ) (l : List ParticleP), l.length = n →
      idsP (stepAllP g b f w h l) = idsP l := by
  intro n
  induction n with
  | zero =>
      intro l hl
      rw [List.length_eq_zero] at hl
      subst hl
      rw [stepAllP_nil]
  | succ n ih =>
      intro l hl
      cases l with
      | nil => simp at hl
      | cons p ps =>
          rw [stepAllP_cons]
          simp only [idsP, List.map_cons]
          obtain ⟨h1, h2⟩ := innerP_fst_ids (updateP g b f w h p) ps
          obtain ⟨u1, u2⟩ := updateP_ids g b f w h p
          rw [h1, h2, u1, u2]
          have hlen : (innerP (updateP g b f w h p) ps).2.length = n := by
            rw [innerP_snd_length]
            simpa using hl
          have hrec := ih _ hlen
          simp only [idsP] at hrec
          rw [hrec]
          have hsnd := innerP_snd_ids (updateP g b f w h p) ps
          simp only [idsP] at hsnd
          rw [hsnd]

theorem stepAllP_ids' (g b f w h : ℝ) (l : List ParticleP) :
    idsP (stepAllP g b f w h l) = idsP l :=
  stepAllP_ids g b f w h l.length l rfl

/-- C1 as claimed is false.  Both entities have size 30, so for width 100
the claimed band is `x ∈ [15, 85]`; both start inside it (the first
exactly on the wall at `x = 15`) and overlap.  With `dt = 0` nothing
moves during integration and the boundary phase fires nothing, but the
pairwise overlap separation, which runs after the boundary clamp with no
re-clamp, pushes the first entity to `x = 5 < 15`. -/
theorem c1_counterexample :
    ((stepE 0 (4/5) 1 100 100 0 [mkE 15 50 0 0, mkE 25 50 0 0]).map ParticleE.x).head?
        = some 5 ∧ ((5 : ℝ) < 30 / 2) := by
  have hint : integrateE 0 1 0 (mkE 15 50 0 0) = mkE 15 50 0 0 := by
    ext <;> simp [integrateE, mkE]
  have hbd : boundaryE (4/5) 100 100 (mkE 15 50 0 0) = mkE 15 50 0 0 :=
    boundaryE_eq_of _ _ _ _ (by norm_num [mkE]) (by norm_num [mkE])
      (by norm_num [mkE]) (by norm_num [mkE])
  have hsq : Real.sqrt (((mkE 25 50 0 0).x - (mkE 15 50 0 0).x)
      * ((mkE 25 50 0 0).x - (mkE 15 50 0 0).x)
      + ((mkE 25 50 0 0).y - (mkE 15 50 0 0).y)
      * ((mkE 25 50 0 0).y - (mkE 15 50 0 0).y)) = 10 := by
    simp only [mkE]
    exact sqrt_eval (by norm_num) (by norm_num)
  rw [stepE_cons, hint, hbd]
  constructor
  · simp only [innerE, List.map_cons, List.head?]
    simp only [collidePairE, hsq]
    norm_num [mkE]
  · norm_num

/-- C1, amended: the boundary clamp invariant does hold for every entity
after its own integration-and-boundary phase, for any world parameters and
any entity that fits the box; it is only the subsequent pairwise overlap
separation that can move an entity back out of the band (no re-clamp runs
after separation), as the counterexample shows. -/
theorem c1_boundary_phase_clamp (g b f W H dt : ℝ) (p : ParticleE)
    (hW : p.size ≤ W) (hH : p.size ≤ H) :
    p.size / 2 ≤ (boundaryE b W H (integrateE g f dt p)).x ∧
    (boundaryE b W H (integrateE g f dt p)).x ≤ W - p.size / 2 ∧
    p.size / 2 ≤ (boundaryE b W H (integrateE g f dt p)).y ∧
    (boundaryE b W H (integrateE g f dt p)).y ≤ H - p.size / 2 := by
  have h := boundaryE_mem b W H (integrateE g f dt p)
    (by rwa [integrateE_size]) (by rwa [integrateE_size])
  rwa [integrateE_size] at h

theorem c1_boundary_phase_clamp_witness :
    (mkE 50 50 3 4).size / 2
        ≤ (boundaryE (4/5) 100 100 (integrateE 500 (99/100) (1/60) (mkE 50 50 3 4))).x ∧
    (boundaryE (4/5) 100 100 (integrateE 500 (99/100) (1/60) (mkE 50 50 3 4))).x
        ≤ 100 - (mkE 50 50 3 4).size / 2 ∧
    (mkE 50 50 3 4).size / 2
        ≤ (boundaryE (4/5) 100 100 (integrateE 500 (99/100) (1/60) (mkE 50 50 3 4))).y ∧
    (boundaryE (4/5) 100 100 (integrateE 500 (99/100) (1/60) (mkE 50 50 3 4))).y
        ≤ 100 - (mkE 50 50 3 4).size / 2 :=
  c1_boundary_phase_clamp 500 (4/5) (99/100) 100 100 (1/60) (mkE 50 50 3 4)
    (by norm_num [mkE]) (by norm_num [mkE])

/-- C2 as claimed is false.  With `friction = 1/2` and `dt = 1/30` the
engine multiplies the velocity by `Math.pow(friction, dt * 60) =
(1/2)^2 = 1/4` in one step, not by `friction = 1/2` as the claim's
step (2) states: an entity starting with `vx = 1` and meeting no wall ends
the step with `vx = 1/4 ≠ 1 * (1/2)`. -/
theorem c2_counterexample :
    ((stepE 0 (4/5) (1/2) 100 100 (1/30) [mkE 50 50 1 0]).map ParticleE.vx).head?
        = some (1/4) ∧ ¬ ((1/4 : ℝ) = 1 * (1/2)) := by
  have hF : Real.rpow (1/2) ((1/30) * 60) = 1/4 := by
    rw [Real.rpow_eq_pow, show ((1/30 : ℝ)) * 60 = (2:ℝ) by norm_num, Real.rpow_two]
    norm_num
  have hint : integrateE 0 (1/2) (1/30) (mkE 50 50 1 0)
      = (⟨6001/120, 50, 1/4, 0, 30, 1, 0, 0, 0⟩ : ParticleE) := by
    ext <;> simp [integrateE, mkE, hF] <;> norm_num
  have hbd : boundaryE (4/5) 100 100 (⟨6001/120, 50, 1/4, 0, 30, 1, 0, 0, 0⟩ : ParticleE)
      = (⟨6001/120, 50, 1/4, 0, 30, 1, 0, 0, 0⟩ : ParticleE) :=
    boundaryE_eq_of _ _ _ _ (by norm_num) (by norm_num) (by norm_num) (by norm_num)
  rw [stepE_cons, hint, hbd]
  constructor
  · simp [innerE]
  · norm_num

/-- C2, amended: one engine2d step on an entity that meets no wall
performs exactly, in this order: (1) `vy += gravity * dt`; (2) `vx` and
`vy` scaled by the per-step decay factor `F = friction ^ (dt * 60)`;
(3) `x += vx * dt` and `y += vy * dt` using the post-gravity post-friction
velocity (semi-implicit Euler); (4) `rotation += rotationSpeed`. -/
theorem c2_integration_order (g b f W H dt F : ℝ) (p : ParticleE)
    (hF : Real.rpow f (dt * 60) = F)
    (h1 : ¬ p.x + p.vx * F * dt - p.size / 2 < 0)
    (h2 : ¬ p.x + p.vx * F * dt + p.size / 2 > W)
    (h3 : ¬ p.y + (p.vy + g * dt) * F * dt - p.size / 2 < 0)
    (h4 : ¬ p.y + (p.vy + g * dt) * F * dt + p.size / 2 > H) :
    stepE g b f W H dt [p] =
      [{ p with x := p.x + p.vx * F * dt,
                y := p.y + (p.vy + g * dt) * F * dt,
                vx := p.vx * F,
                vy := (p.vy + g * dt) * F,
                rotation := p.rotation + p.rotationSpeed }] := by
  have hint : integrateE g f dt p
      = { p with x := p.x + p.vx * F * dt,
                 y := p.y + (p.vy + g * dt) * F * dt,
                 vx := p.vx * F,
                 vy := (p.vy + g * dt) * F,
                 rotation := p.rotation + p.rotationSpeed } := by
    ext <;> dsimp only [integrateE] <;> simp only [hF]
  have hbd := boundaryE_eq_of b W H
    { p with x := p.x + p.vx * F * dt,
             y := p.y + (p.vy + g * dt) * F * dt,
             vx := p.vx * F,
             vy := (p.vy + g * dt) * F,
             rotation := p.rotation + p.rotationSpeed } h1 h2 h3 h4
  rw [stepE_cons, hint, hbd]
  simp [innerE, stepE_nil]

theorem c2_integration_order_witness :
    stepE 500 (4/5) 1 100 100 (1/60) [mkE 40 40 6 (-12)] =
      [{ mkE 40 40 6 (-12) with
          x := (mkE 40 40 6 (-12)).x + (mkE 40 40 6 (-12)).vx * 1 * (1/60),
          y := (mkE 40 40 6 (-12)).y
              + ((mkE 40 40 6 (-12)).vy + 500 * (1/60)) * 1 * (1/60),
          vx := (mkE 40 40 6 (-12)).vx * 1,
          vy := ((mkE 40 40 6 (-12)).vy + 500 * (1/60)) * 1,
          rotation := (mkE 40 40 6 (-12)).rotation + (mkE 40 40 6 (-12)).rotationSpeed }] :=
  c2_integration_order 500 (4/5) 1 100 100 (1/60) 1 (mkE 40 40 6 (-12))
    (Real.one_rpow _) (by norm_num [mkE]) (by norm_num [mkE])
    (by norm_num [mkE]) (by norm_num [mkE])

/-- C3: an entity falling straight down that crosses the floor during a
step, with friction 1 (no decay), ends the step with its vertical velocity
scaled by the restitution and sign-inverted and its position clamped to
the floor.  `v` is the vertical speed with which the entity crosses, i.e.
its velocity after the gravity update of the same step. -/
theorem c3_floor_restitution (g b W H dt v : ℝ) (p : ParticleE)
    (hvx : p.vx = 0)
    (hv : p.vy + g * dt = v)
    (hx1 : ¬ p.x - p.size / 2 < 0)
    (hx2 : ¬ p.x + p.size / 2 > W)
    (hy1 : ¬ p.y + v * dt - p.size / 2 < 0)
    (hy2 : p.y + v * dt + p.size / 2 > H) :
    (stepE g b 1 W H dt [p]).map ParticleE.vy = [-(b * v)] ∧
    (stepE g b 1 W H dt [p]).map ParticleE.y = [H - p.size / 2] := by
  have hF : Real.rpow 1 (dt * 60) = 1 := Real.one_rpow _
  have hint : integrateE g 1 dt p
      = { p with x := p.x, y := p.y + v * dt, vx := 0, vy := v,
                 rotation := p.rotation + p.rotationSpeed } := by
    ext <;> simp [integrateE, hF, hvx, hv]
  have hbd := boundaryE_floor b W H
    { p with x := p.x, y := p.y + v * dt, vx := 0, vy := v,
             rotation := p.rotation + p.rotationSpeed } hx1 hx2 hy1 hy2
  rw [stepE_cons, hint, hbd]
  refine ⟨?_, ?_⟩ <;> simp [innerE, stepE_nil] <;> ring

theorem c3_floor_restitution_witness :
    (stepE 0 (1/2) 1 100 100 1 [mkE 50 95 0 10]).map ParticleE.vy = [-(1/2 * 10)] ∧
    (stepE 0 (1/2) 1 100 100 1 [mkE 50 95 0 10]).map ParticleE.y
        = [100 - (mkE 50 95 0 10).size / 2] :=
  c3_floor_restitution 0 (1/2) 100 100 1 10 (mkE 50 95 0 10)
    (by norm_num [mkE]) (by norm_num [mkE]) (by norm_num [mkE])
    (by norm_num [mkE]) (by norm_num [mkE]) (by norm_num [mkE])

/-- C8 as claimed is false: the rotation update
`p.rotation += p.rotationSpeed` is the one line of the integration not
scaled by `dt`, so a lone in-bounds entity with `rotationSpeed = 1`
changes rotation from 0 to 1 even at `dt = 0`. -/
theorem c8_counterexample :
    ((stepE 500 (4/5) (99/100) 100 100 0
        [(⟨50, 50, 0, 0, 30, 1, 0, 1, 0⟩ : ParticleE)]).map ParticleE.rotation).head?
      = some 1 ∧ ¬ ((1 : ℝ) = 0) := by
  have hb : boundaryE (4/5) 100 100
      (integrateE 500 (99/100) 0 (⟨50, 50, 0, 0, 30, 1, 0, 1, 0⟩ : ParticleE))
      = spinE (⟨50, 50, 0, 0, 30, 1, 0, 1, 0⟩ : ParticleE) := by
    rw [integrateE_zero_dt]
    exact boundaryE_eq_of _ _ _ _ (by norm_num [spinE]) (by norm_num [spinE])
      (by norm_num [spinE]) (by norm_num [spinE])
  rw [stepE_cons, hb]
  constructor
  · simp [innerE, spinE]
  · norm_num

/-- C8, amended: a step at `dt = 0` on a collection of in-bounds,
pairwise non-overlapping entities leaves every position and velocity
unchanged and only advances each rotation by its rotationSpeed (which the
claim wrongly included among the unchanged quantities; moreover, an
already-overlapping approaching pair would also receive the impulse, not
only the positional separation). -/
theorem c8_dt_zero_step (g b f W H : ℝ) (es : List ParticleE)
    (hin : ∀ p ∈ es, ¬ p.x - p.size / 2 < 0 ∧ ¬ p.x + p.size / 2 > W ∧
        ¬ p.y - p.size / 2 < 0 ∧ ¬ p.y + p.size / 2 > H)
    (hsep : es.Pairwise fun p q => ¬ overlapE p q) :
    stepE g b f W H 0 es = es.map spinE := by
  induction es with
  | nil => simp [stepE_nil]
  | cons p ps ih =>
      rw [List.pairwise_cons] at hsep
      obtain ⟨hhead, htail⟩ := hsep
      obtain ⟨h1, h2, h3, h4⟩ := hin p (by simp)
      have hb : boundaryE b W H (integrateE g f 0 p) = spinE p := by
        rw [integrateE_zero_dt]
        exact boundaryE_eq_of _ _ _ _ h1 h2 h3 h4
      have hi : innerE b (spinE p) ps = (spinE p, ps) :=
        innerE_eq_of b (spinE p) ps
          fun q hq h => hhead q hq ((overlapE_spinE p q).mp h)
      rw [stepE_cons, hb, hi]
      simp only [List.map_cons]
      rw [ih (fun q hq => hin q (by simp [hq])) htail]

theorem c8_dt_zero_step_witness :
    stepE 500 (4/5) (99/100) 100 100 0 [mkE 50 50 3 4] = [mkE 50 50 3 4].map spinE :=
  c8_dt_zero_step 500 (4/5) (99/100) 100 100 [mkE 50 50 3 4]
    (by
      intro q hq
      rw [List.mem_singleton] at hq
      subst hq
      norm_num [mkE])
    (by simp)

/-- C9: for every pair of entities, every restitution factor and even
without any collision or approach hypothesis, the pairwise velocity update
of both engines conserves total momentum componentwise:
`m1*v1 + m2*v2` is unchanged by `collidePairE` (engine2d.js) and by
`checkCollisionP` (physics-engine.js). -/
theorem c9_momentum_conserved (b : ℝ) (p q : ParticleE) (r s : ParticleP) :
    p.mass * (collidePairE b p q).1.vx + q.mass * (collidePairE b p q).2.vx
        = p.mass * p.vx + q.mass * q.vx ∧
    p.mass * (collidePairE b p q).1.vy + q.mass * (collidePairE b p q).2.vy
        = p.mass * p.vy + q.mass * q.vy ∧
    r.mass * (checkCollisionP r s).1.vx + s.mass * (checkCollisionP r s).2.vx
        = r.mass * r.vx + s.mass * s.vx ∧
    r.mass * (checkCollisionP r s).1.vy + s.mass * (checkCollisionP r s).2.vy
        = r.mass * r.vy + s.mass * s.vy := by
  refine ⟨?_, ?_, ?_, ?_⟩ <;>
    · simp only [collidePairE, checkCollisionP]
      split_ifs <;> simp <;> ring

/-- C10: when two entities' centers coincide exactly, the distance is
`Real.sqrt 0 = 0`, the guard `distance > 0` fails, and the pairwise
resolution of either engine returns both entities unchanged. -/
theorem c10_zero_distance_guard (b : ℝ) (p q : ParticleE) (r s : ParticleP)
    (hx : q.x = p.x) (hy : q.y = p.y) (hx2 : s.x = r.x) (hy2 : s.y = r.y) :
    collidePairE b p q = (p, q) ∧ checkCollisionP r s = (r, s) := by
  constructor
  · simp [collidePairE, hx, hy]
  · simp [checkCollisionP, hx2, hy2]

theorem c10_zero_distance_guard_witness :
    collidePairE 1 (mkE 5 5 1 2) (mkE 5 5 3 4) = (mkE 5 5 1 2, mkE 5 5 3 4) ∧
    checkCollisionP (mkP 7 8 1 2) (mkP 7 8 3 4) = (mkP 7 8 1 2, mkP 7 8 3 4) :=
  c10_zero_distance_guard 1 (mkE 5 5 1 2) (mkE 5 5 3 4) (mkP 7 8 1 2) (mkP 7 8 3 4)
    rfl rfl rfl rfl

/-- C5 as claimed is false: with restitution factor 0 the engine2d impulse
`impulse * mass * n * bounce` vanishes, so an approaching overlapping pair
keeps its velocities.  Here the contact normal is `(1, 0)`: the normal
velocity components after resolution are 5 and -5, not equal. -/
theorem c5_counterexample :
    (collidePairE 0 (mkE 0 0 5 0) (mkE 10 0 (-5) 0)).1.vx = 5 ∧
    (collidePairE 0 (mkE 0 0 5 0) (mkE 10 0 (-5) 0)).1.vy = 0 ∧
    (collidePairE 0 (mkE 0 0 5 0) (mkE 10 0 (-5) 0)).2.vx = -5 ∧
    (collidePairE 0 (mkE 0 0 5 0) (mkE 10 0 (-5) 0)).2.vy = 0 ∧
    ¬ ((5 : ℝ) = -5) := by
  have h10 : Real.sqrt (((mkE 10 0 (-5) 0).x - (mkE 0 0 5 0).x)
      * ((mkE 10 0 (-5) 0).x - (mkE 0 0 5 0).x)
      + ((mkE 10 0 (-5) 0).y - (mkE 0 0 5 0).y)
      * ((mkE 10 0 (-5) 0).y - (mkE 0 0 5 0).y)) = 10 := by
    simp only [mkE]
    exact sqrt_eval (by norm_num) (by norm_num)
  refine ⟨?_, ?_, ?_, ?_, by norm_num⟩ <;>
    · simp only [collidePairE, h10]
      norm_num [mkE]

/-- C5, amended: with restitution/inelasticity factor 0 the pairwise
collision resolution of engine2d leaves both entities' velocities entirely
unchanged (only the positional separation is applied), so approaching
entities do not end with equal normal velocity components. -/
theorem c5_zero_restitution_velocities_unchanged (p q : ParticleE) :
    (collidePairE 0 p q).1.vx = p.vx ∧ (collidePairE 0 p q).1.vy = p.vy ∧
    (collidePairE 0 p q).2.vx = q.vx ∧ (collidePairE 0 p q).2.vy = q.vy := by
  refine ⟨?_, ?_, ?_, ?_⟩ <;>
    · simp only [collidePairE]
      split_ifs <;> simp

/-- C4: two overlapping entities of equal mass whose velocities are both
parallel to the contact normal (head-on), approaching (`c ≤ a` in the
normal parametrization, so `relativeVelocity = c - a ≤ 0`), with
restitution factor 1.0: the engine2d resolution exchanges the two
velocities, the elastic collision law. -/
theorem c4_elastic_exchange (p q : ParticleE) (a c d : ℝ)
    (hd : Real.sqrt ((q.x - p.x) * (q.x - p.x) + (q.y - p.y) * (q.y - p.y)) = d)
    (hdpos : 0 < d)
    (hover : d < (p.size + q.size) / 2)
    (hm : q.mass = p.mass)
    (hmpos : 0 < p.mass)
    (hpvx : p.vx = a * ((q.x - p.x) / d))
    (hpvy : p.vy = a * ((q.y - p.y) / d))
    (hqvx : q.vx = c * ((q.x - p.x) / d))
    (hqvy : q.vy = c * ((q.y - p.y) / d))
    (happ : c ≤ a) :
    (collidePairE 1 p q).1.vx = c * ((q.x - p.x) / d) ∧
    (collidePairE 1 p q).1.vy = c * ((q.y - p.y) / d) ∧
    (collidePairE 1 p q).2.vx = a * ((q.x - p.x) / d) ∧
    (collidePairE 1 p q).2.vy = a * ((q.y - p.y) / d) := by
  have hsq : (q.x - p.x) * (q.x - p.x) + (q.y - p.y) * (q.y - p.y) = d * d := by
    have h0 : 0 ≤ (q.x - p.x) * (q.x - p.x) + (q.y - p.y) * (q.y - p.y) :=
      add_nonneg (mul_self_nonneg _) (mul_self_nonneg _)
    rw [← hd, Real.mul_self_sqrt h0]
  have hn : (q.x - p.x) / d * ((q.x - p.x) / d) + (q.y - p.y) / d * ((q.y - p.y) / d) = 1 := by
    field_simp
    linear_combination hsq
  have hrv : (q.vx - p.vx) * ((q.x - p.x) / d) + (q.vy - p.vy) * ((q.y - p.y) / d)
      = c - a := by
    rw [hpvx, hpvy, hqvx, hqvy]
    linear_combination (c - a) * hn
  have hne : (0 : ℝ) < p.mass + q.mass := by rw [hm]; linarith
  refine ⟨?_, ?_, ?_, ?_⟩ <;>
    · simp only [collidePairE, hd]
      rw [if_pos ⟨hover, hdpos⟩, hrv, if_neg (by linarith : ¬ c - a > 0)]
      simp only [hm, hpvx, hpvy, hqvx, hqvy]
      field_simp
      ring

theorem c4_elastic_exchange_witness :
    (collidePairE 1 (mkE 0 0 5 0) (mkE 10 0 (-5) 0)).1.vx
        = -5 * (((mkE 10 0 (-5) 0).x - (mkE 0 0 5 0).x) / 10) ∧
    (collidePairE 1 (mkE 0 0 5 0) (mkE 10 0 (-5) 0)).1.vy
        = -5 * (((mkE 10 0 (-5) 0).y - (mkE 0 0 5 0).y) / 10) ∧
    (collidePairE 1 (mkE 0 0 5 0) (mkE 10 0 (-5) 0)).2.vx
        = 5 * (((mkE 10 0 (-5) 0).x - (mkE 0 0 5 0).x) / 10) ∧
    (collidePairE 1 (mkE 0 0 5 0) (mkE 10 0 (-5) 0)).2.vy
        = 5 * (((mkE 10 0 (-5) 0).y - (mkE 0 0 5 0).y) / 10) :=
  c4_elastic_exchange (mkE 0 0 5 0) (mkE 10 0 (-5) 0) 5 (-5) 10
    (by simp only [mkE]; exact sqrt_eval (by norm_num) (by norm_num))
    (by norm_num)
    (by norm_num [mkE])
    (by norm_num [mkE])
    (by norm_num [mkE])
    (by norm_num [mkE])
    (by norm_num [mkE])
    (by norm_num [mkE])
    (by norm_num [mkE])
    (by norm_num)

/-- C6 as claimed is false above capacity: `launchParticle` evicts at most
one entity (`shift()` once) before pushing, so from a collection of 2
entities with capacity 1 the spawn leaves 2 entities, not 1. -/
theorem c6_counterexample :
    (launchE 1 [mkE 0 0 0 0, mkE 1 1 0 0] (mkE 2 2 0 0)).length = 2 ∧ (2 : ℕ) ≠ 1 :=
  ⟨rfl, by norm_num⟩

/-- C6, amended: from a collection at exactly the capacity bound `N ≥ 1`
(the only at-or-above case either engine's own spawns can reach when every
insertion goes through the capacity check), a spawn evicts exactly the
single oldest-created entity (the front of the creation-ordered list) and
leaves exactly `N` entities, the `N` most recently created — in engine2d's
`launchParticle` and in physics-engine's push-then-`manageParticleLimit`
alike.  Strictly above `N`, `launchE` leaves the count unchanged (the
counterexample) and `spawnP` trims to `N` but evicts several oldest. -/
theorem c6_capacity_amended (N : ℕ) (es : List ParticleE) (e : ParticleE)
    (fs : List ParticleP) (fp : ParticleP)
    (hN : 1 ≤ N) (hlen : es.length = N) (hlenP : fs.length = N) :
    launchE N es e = es.drop 1 ++ [e] ∧
    launchE N es e = (es ++ [e]).drop 1 ∧
    (launchE N es e).length = N ∧
    spawnP N fs fp = (fs ++ [fp]).drop 1 ∧
    (spawnP N fs fp).length = N := by
  cases es with
  | nil =>
      simp only [List.length_nil] at hlen
      omega
  | cons a as =>
    cases fs with
    | nil =>
        simp only [List.length_nil] at hlenP
        omega
    | cons b bs =>
      simp only [List.length_cons] at hlen hlenP
      have h4 : spawnP N (b :: bs) fp = ((b :: bs) ++ [fp]).drop 1 := by
        rw [spawnP, manageP, if_pos (by simp only [List.length_append,
          List.length_cons, List.length_nil]; omega)]
        congr 1
        simp only [List.length_append, List.length_cons, List.length_nil]
        omega
      refine ⟨?_, ?_, ?_, h4, ?_⟩
      · rw [launchE, if_pos (by simp only [List.length_cons]; omega)]
      · rw [launchE, if_pos (by simp only [List.length_cons]; omega)]
        simp
      · rw [launchE, if_pos (by simp only [List.length_cons]; omega)]
        simp
        omega
      · rw [h4]
        simp
        omega

theorem c6_capacity_amended_witness :
    launchE 2 [mkE 0 0 0 0, mkE 1 1 0 0] (mkE 2 2 0 0)
        = [mkE 0 0 0 0, mkE 1 1 0 0].drop 1 ++ [mkE 2 2 0 0] ∧
    launchE 2 [mkE 0 0 0 0, mkE 1 1 0 0] (mkE 2 2 0 0)
        = ([mkE 0 0 0 0, mkE 1 1 0 0] ++ [mkE 2 2 0 0]).drop 1 ∧
    (launchE 2 [mkE 0 0 0 0, mkE 1 1 0 0] (mkE 2 2 0 0)).length = 2 ∧
    spawnP 2 [mkP 0 0 0 0, mkP 1 1 0 0] (mkP 2 2 0 0)
        = ([mkP 0 0 0 0, mkP 1 1 0 0] ++ [mkP 2 2 0 0]).drop 1 ∧
    (spawnP 2 [mkP 0 0 0 0, mkP 1 1 0 0] (mkP 2 2 0 0)).length = 2 :=
  c6_capacity_amended 2 [mkE 0 0 0 0, mkE 1 1 0 0] (mkE 2 2 0 0)
    [mkP 0 0 0 0, mkP 1 1 0 0] (mkP 2 2 0 0) (by norm_num) rfl rfl

/-- C7: across one whole `animate` frame (update loop, pairwise
collisions, then the lifecycle filter), an entity identified by its
creation time `c` and time-to-live `L` is present afterwards iff it was
present before and its age at the frame's clock reading `t` is still
strictly below `L`: the filter keeps exactly `age < lifespan`, and no
physics write touches `createdAt` or `lifespan`.  So it survives every
frame with `age < L` and is removed on the first frame with `age ≥ L`. -/
theorem c7_lifetime_filter (g b f w h : ℝ) (t c L : ℤ) (es : List ParticleP) :
    (∃ q ∈ animP g b f w h t es, q.createdAt = c ∧ q.lifespan = L)
      ↔ (∃ q ∈ es, q.createdAt = c ∧ q.lifespan = L) ∧ t - c < L := by
  have key : ∀ l : List ParticleP,
      ((∃ q ∈ l, q.createdAt = c ∧ q.lifespan = L) ↔ (c, L) ∈ idsP l) := by
    intro l
    constructor
    · rintro ⟨q, hq, hc, hL⟩
      exact List.mem_map.mpr ⟨q, hq, by rw [hc, hL]⟩
    · intro hmem
      obtain ⟨q, hq, he⟩ := List.mem_map.mp hmem
      rw [Prod.mk.injEq] at he
      exact ⟨q, hq, he.1, he.2⟩
  rw [animP, cullP]
  constructor
  · rintro ⟨q, hq, hc, hL⟩
    rw [List.mem_filter, decide_eq_true_eq] at hq
    obtain ⟨hmem, hlive⟩ := hq
    rw [hc, hL] at hlive
    have hid : (c, L) ∈ idsP (stepAllP g b f w h es) := (key _).mp ⟨q, hmem, hc, hL⟩
    rw [stepAllP_ids'] at hid
    exact ⟨(key es).mpr hid, hlive⟩
  · rintro ⟨⟨q, hq, hc, hL⟩, ht⟩
    have hid : (c, L) ∈ idsP (stepAllP g b f w h es) := by
      rw [stepAllP_ids']
      exact (key es).mp ⟨q, hq, hc, hL⟩
    obtain ⟨q', hq', hc', hL'⟩ := (key _).mpr hid
    refine ⟨q', List.mem_filter.mpr ⟨hq', ?_⟩, hc', hL'⟩
    rw [decide_eq_true_eq, hc', hL']
    exact ht

end HomeApp
